import Mathlib

/-!
Verification development for the SQL query optimizer core
(backend/core/parser.py, analyser.py, index_advisor.py, optimizer.py and
the backend/api/main.py pipeline).

The program operates on the token tree produced by the external `sqlparse`
library.  We embed that tree shallowly: a token is either a leaf (`atom`)
carrying its `ttype` and text, or a grouped token list (`group`) tagged with
the sqlparse class it instantiates (Identifier, IdentifierList, Where,
Comparison, Function, Parenthesis, or any other TokenList).  The sqlparse
name accessors (`get_real_name`, `get_alias`, `get_name`, `get_parent_name`)
are library calls; we model their results as fields attached to Identifier
groups (`IdentInfo`), with `Option` encoding Python's `None` for the two
accessors whose absence the repository code tests with `or`.

All repository functions are translated directly from the source; every
definition whose name starts with `SQLParser_`, `QueryAnalyzer_`,
`IndexAdvisor_`, `QueryOptimizer_` or `analyzeQueryEndpoint` corresponds to
the same-named Python method.  Definitions used only to state spec-side
conditions are explicitly marked.
-/

set_option maxHeartbeats 1600000

/-- sqlparse token types relevant to the repository code.  `keyword` and
`dml` both satisfy Python's `token.is_keyword` (DML is a sub-kind of
Keyword in sqlparse), but `Token.match(Keyword, v)` matches the exact
ttype only. -/
inductive TType where
  | keyword | dml | whitespace | punctuation | comment | name | wildcard | literal | other
deriving DecidableEq, Repr

/-- sqlparse group (TokenList subclass) kinds tested by the code via
`isinstance`. -/
inductive GKind where
  | ident | identList | whereG | comparison | function | parenthesis | other
deriving DecidableEq, Repr

/-- Results of the sqlparse name accessors on an Identifier group.
`aliasName` is `get_alias()` (None when no alias), `parentName` is
`get_parent_name()` (None when unqualified); `realName` and `name` model
`get_real_name()` / `get_name()` for grouped identifiers, which return the
identifier's textual name. -/
structure IdentInfo where
  realName : String
  aliasName : Option String
  name : String
  parentName : Option String
deriving DecidableEq, Repr

/-- A sqlparse token: leaf atom or grouped token list.  `info` is only
meaningful when `k = GKind.ident`; other groups carry a dummy value. -/
inductive Tok where
  | atom (tt : TType) (value : String)
  | group (k : GKind) (info : IdentInfo) (children : List Tok)
deriving Repr

def noInfo : IdentInfo := ⟨"", none, "", none⟩

/-- Python truthiness-based `a or b` on an optional string (None and the
empty string are falsy). -/
def pyOr (a : Option String) (b : String) : String :=
  match a with
  | some s => if s = "" then b else s
  | none => b

/-- `token.is_keyword` (true for Keyword and its DML sub-kind). -/
def isKw : Tok → Bool
  | .atom .keyword _ => true
  | .atom .dml _ => true
  | _ => false

/-- `token.is_whitespace`. -/
def isWs : Tok → Bool
  | .atom .whitespace _ => true
  | _ => false

def isIdentG : Tok → Bool
  | .group .ident _ _ => true
  | _ => false

def isIdentListG : Tok → Bool
  | .group .identList _ _ => true
  | _ => false

def isWhereG : Tok → Bool
  | .group .whereG _ _ => true
  | _ => false

def isComparisonG : Tok → Bool
  | .group .comparison _ _ => true
  | _ => false

def isParenG : Tok → Bool
  | .group .parenthesis _ _ => true
  | _ => false

def isFunctionG : Tok → Bool
  | .group .function _ _ => true
  | _ => false

def childrenOf : Tok → List Tok
  | .atom _ _ => []
  | .group _ _ ch => ch

mutual
/-- `str(token)`: the raw text of a token (concatenation of leaf values). -/
def render : Tok → String
  | .atom _ v => v
  | .group _ _ ch => renderList ch

def renderList : List Tok → String
  | [] => ""
  | t :: ts => render t ++ renderList ts
end

/-- Python `str.upper()` (ASCII, as used on SQL keywords). -/
def strUpper (s : String) : String := ⟨s.data.map Char.toUpper⟩

/-- `token.normalized`: uppercased value for keywords, raw value otherwise
(for token lists the value is the rendered text). -/
def normTok : Tok → String
  | .atom tt v => if tt = .keyword || tt = .dml then strUpper v else v
  | .group _ _ ch => renderList ch

/-- `token.match(Keyword, v)` for an uppercase `v`: the ttype must be the
plain Keyword type (not DML) and the normalized value must equal `v`. -/
def matchKw (t : Tok) (v : String) : Bool :=
  match t with
  | .atom .keyword val => strUpper val = v
  | _ => false

/-- `token.match(DML, v)` for an uppercase `v`. -/
def matchDML (t : Tok) (v : String) : Bool :=
  match t with
  | .atom .dml val => strUpper val = v
  | _ => false

/-- Code-point lexicographic `<` on char lists: Python's `str.__lt__`. -/
def strLtL : List Char → List Char → Bool
  | [], [] => false
  | [], _ :: _ => true
  | _ :: _, [] => false
  | a :: as, b :: bs =>
    if a.toNat < b.toNat then true
    else if b.toNat < a.toNat then false
    else strLtL as bs

def pyStrLt (a b : String) : Bool := strLtL a.data b.data

/-- Insert into a sorted list, after all elements not greater (stable, as
in Python's sort which only uses `<`). -/
def pyInsStr (x : String) : List String → List String
  | [] => [x]
  | y :: ys => if pyStrLt x y then x :: y :: ys else y :: pyInsStr x ys

/-- Python `sorted` on a list of strings. -/
def pySortStr (l : List String) : List String :=
  l.foldl (fun acc x => pyInsStr x acc) []

/-- Consecutive-pairs sortedness: no later element is `<` an earlier one. -/
def strSorted : List String → Bool
  | [] => true
  | [_] => true
  | a :: b :: r => !pyStrLt b a && strSorted (b :: r)

/-- Python tuple `<` on (string, string) pairs. -/
def pyPairLt (p q : String × String) : Bool :=
  if pyStrLt p.1 q.1 then true
  else if pyStrLt q.1 p.1 then false
  else pyStrLt p.2 q.2

def pyInsPair (x : String × String) : List (String × String) → List (String × String)
  | [] => [x]
  | y :: ys => if pyPairLt x y then x :: y :: ys else y :: pyInsPair x ys

/-- Python `sorted` on a list of (alias, column) tuples. -/
def pySortPairs (l : List (String × String)) : List (String × String) :=
  l.foldl (fun acc x => pyInsPair x acc) []

/-- Python `'sep'.join(l)`. -/
def joinSep (sep : String) : List String → String
  | [] => ""
  | [x] => x
  | x :: y :: r => x ++ sep ++ joinSep sep (y :: r)

/-- Python `haystack.replace(pat, rep, 1)`: replace the first occurrence. -/
def replFirstL (pat rep : List Char) : List Char → List Char
  | [] => []
  | c :: rest =>
    if pat.isPrefixOf (c :: rest) then rep ++ (c :: rest).drop pat.length
    else c :: replFirstL pat rep rest

def pyReplaceFirst (s pat rep : String) : String :=
  ⟨replFirstL pat.data rep.data s.data⟩

/-- Substring containment on char lists. -/
def containsL (needle : List Char) : List Char → Bool
  | [] => needle.isEmpty
  | c :: rest => needle.isPrefixOf (c :: rest) || containsL needle rest

/-- Substring containment, Python `needle in hay`. -/
def strContains (hay needle : String) : Bool :=
  containsL needle.data hay.data

/-- Alias table: Python dict modelled as an insertion-ordered association
list with in-place update on existing keys. -/
abbrev AliasMap := List (String × String)

/-- `tables[k] = v` on a Python dict. -/
def dinsert : AliasMap → String → String → AliasMap
  | [], k, v => [(k, v)]
  | (k', v') :: rest, k, v =>
      if k' = k then (k, v) :: rest else (k', v') :: dinsert rest k v

/-- `d.get(k)` on a Python dict. -/
def dget : AliasMap → String → Option String
  | [], _ => none
  | (k', v') :: rest, k => if k' = k then some v' else dget rest k

/-- `tables[alias] = real_name` with `alias = token.get_alias() or real_name`
(shared verbatim by parser and index advisor). -/
def addIdent (m : AliasMap) (i : IdentInfo) : AliasMap :=
  dinsert m (pyOr i.aliasName i.realName) i.realName

/-- `x.match(Punctuation, ',')`. -/
def matchPunctComma : Tok → Bool
  | .atom .punctuation v => v = ","
  | _ => false

/-- `IdentifierList.get_identifiers()`: children that are neither
whitespace nor a comma. -/
def getIdentifiers (ch : List Tok) : List Tok :=
  ch.filter (fun t => !isWs t && !matchPunctComma t)

/-- The Identifier / IdentifierList contribution of one token while the
table-expectation flag is set; literally the same statements appear in
`SQLParser._get_tables_and_aliases` and
`IndexAdvisor._map_aliases_to_tables`. -/
def scanAdd : Tok → AliasMap → AliasMap
  | .group .ident i _, m => addIdent m i
  | .group .identList _ ch, m =>
      (getIdentifiers ch).foldl
        (fun m t => match t with
          | .group .ident i _ => addIdent m i
          | _ => m) m
  | _, m => m

/-- The five table-introducing keywords of the parser scan. -/
def isTableKw5 (t : Tok) : Bool :=
  isKw t && (normTok t = "FROM" || normTok t = "JOIN" || normTok t = "LEFT JOIN"
    || normTok t = "RIGHT JOIN" || normTok t = "INNER JOIN")

/-- The three table-introducing keywords of the advisor scan. -/
def isTableKw3 (t : Tok) : Bool :=
  isKw t && (normTok t = "FROM" || normTok t = "JOIN" || normTok t = "LEFT JOIN")

/-- One iteration of the `SQLParser._get_tables_and_aliases` loop.  With
the flag set, the body adds the Identifier / IdentifierList entries and
then clears the flag unless the token is whitespace or a comma; in either
case a table keyword re-sets it.  The resulting flag from a set flag is
`isTableKw5 t ∨ isWs t ∨ normalized = ","`; from a clear flag it is
`isTableKw5 t`. -/
def parserStep (st : AliasMap × Bool) (t : Tok) : AliasMap × Bool :=
  match st with
  | (m, false) => (m, isTableKw5 t)
  | (m, true) =>
      (scanAdd t m,
       if isTableKw5 t then true
       else if isWs t || normTok t = "," then true
       else false)

/-- `SQLParser._get_tables_and_aliases`. -/
def SQLParser_getTablesAndAliases (ts : List Tok) : AliasMap :=
  (ts.foldl parserStep ([], false)).1

/-- `SQLParser.extract_tables`: `sorted(list(set(map.values())))`. -/
def SQLParser_extractTables (ts : List Tok) : List String :=
  pySortStr (((SQLParser_getTablesAndAliases ts).map (fun kv => kv.2)).dedup)

/-- `SQLParser.extract_where_clause`: raw text of the first top-level
Where group, if any. -/
def SQLParser_extractWhereClause (ts : List Tok) : Option String :=
  (ts.find? isWhereG).map render

def isCommentTok : Tok → Bool
  | .atom .comment _ => true
  | _ => false

/-- `SQLParser.get_query_type` = sqlparse `Statement.get_type()`: the
normalized value of the first non-whitespace non-comment token when it is
a DML keyword, `UNKNOWN` otherwise (the repository only distinguishes
SELECT / INSERT / UPDATE / DELETE). -/
def SQLParser_getQueryType (ts : List Tok) : String :=
  match ts.find? (fun t => !isWs t && !isCommentTok t) with
  | some (.atom .dml v) => strUpper v
  | _ => "UNKNOWN"

/-- Python truthiness of an optional string: `None` and `""` are falsy. -/
def pyFalsyOpt : Option String → Bool
  | none => true
  | some s => s = ""

mutual
/-- `QueryAnalyzer._recursive_find_identifiers`: Function groups are
descended only through their Parenthesis children; Identifier groups add
`(get_parent_name() or 'unknown', get_name())` and are then descended;
every other group is descended; leaves contribute nothing. -/
def QueryAnalyzer_findIdents : Tok → List (String × String) → List (String × String)
  | .group .function _ ch, s => findIdentsFnCh ch s
  | .group .ident i ch, s =>
      findIdentsAll ch (s ++ [(pyOr i.parentName "unknown", i.name)])
  | .group _ _ ch, s => findIdentsAll ch s
  | .atom _ _, s => s

def findIdentsFnCh : List Tok → List (String × String) → List (String × String)
  | [], s => s
  | t :: ts, s =>
      findIdentsFnCh ts (if isParenG t then QueryAnalyzer_findIdents t s else s)

def findIdentsAll : List Tok → List (String × String) → List (String × String)
  | [], s => s
  | t :: ts, s => findIdentsAll ts (QueryAnalyzer_findIdents t s)
end

/-- The four buckets of the clause-usage map. -/
structure Usage where
  where_filters : List (String × String)
  join_keys : List (String × String)
  order_by : List (String × String)
  group_by : List (String × String)
deriving DecidableEq, Repr

/-- The `analyze_column_usage` loop.  `token_next(token_index(token))`
resolves to the next non-whitespace token after the current position
(sqlparse tokens compare by identity, so `token_index` returns the
iteration position), modelled by searching the remaining suffix. -/
def QueryAnalyzer_acuGo : List Tok → Bool → Usage → Usage
  | [], _, s => s
  | t :: rest, afterOn, s =>
    if isKw t && normTok t = "ON" then QueryAnalyzer_acuGo rest true s
    else if afterOn && isComparisonG t then
      -- the Python body's four checks run in sequence, but a Comparison
      -- group is neither a Where group nor a keyword, a Where group is not
      -- a keyword, and only the join-key check touches the after-ON flag,
      -- so per token exactly one of the following branches can act
      QueryAnalyzer_acuGo rest false
        { s with join_keys := QueryAnalyzer_findIdents t s.join_keys }
    else if isWhereG t then
      QueryAnalyzer_acuGo rest afterOn
        { s with where_filters := QueryAnalyzer_findIdents t s.where_filters }
    else if isKw t then
      if strContains (normTok t) "ORDER BY" then
        match rest.find? (fun x => !isWs x) with
        | some nt =>
            QueryAnalyzer_acuGo rest afterOn
              { s with order_by := QueryAnalyzer_findIdents nt s.order_by }
        | none => QueryAnalyzer_acuGo rest afterOn s
      else if strContains (normTok t) "GROUP BY" then
        match rest.find? (fun x => !isWs x) with
        | some nt =>
            QueryAnalyzer_acuGo rest afterOn
              { s with group_by := QueryAnalyzer_findIdents nt s.group_by }
        | none => QueryAnalyzer_acuGo rest afterOn s
      else QueryAnalyzer_acuGo rest afterOn s
    else QueryAnalyzer_acuGo rest afterOn s

/-- `QueryAnalyzer.analyze_column_usage`: run the scan with empty set
buckets, then `sorted(list(set))` each bucket. -/
def QueryAnalyzer_analyzeColumnUsage (ts : List Tok) : Usage :=
  let s := QueryAnalyzer_acuGo ts false ⟨[], [], [], []⟩
  ⟨pySortPairs s.where_filters.dedup, pySortPairs s.join_keys.dedup,
   pySortPairs s.order_by.dedup, pySortPairs s.group_by.dedup⟩

structure Finding where
  ftype : String
  message : String
deriving DecidableEq, Repr

def isWordCh (c : Char) : Bool := c.isAlphanum || c = '_'

def isSpaceCh (c : Char) : Bool :=
  c = ' ' || c = '\t' || c = '\n' || c = '\r' || c = '\x0b' || c = '\x0c'

def dotWordCh (c : Char) : Bool := isWordCh c || c = '.'

/-- Match of the regular expression `\b\w+\s*\(\s*[\w\.]+\s*\)` anchored at
the current position (word boundary already checked by the caller).  The
greedy repetitions need no backtracking: shortening any of them leaves a
character that cannot match the following literal. -/
def funcCallAt (l : List Char) : Bool :=
  let w := l.takeWhile isWordCh
  if w.isEmpty then false
  else
    match (l.dropWhile isWordCh).dropWhile isSpaceCh with
    | '(' :: r2 =>
      let r3 := r2.dropWhile isSpaceCh
      if (r3.takeWhile dotWordCh).isEmpty then false
      else
        match (r3.dropWhile dotWordCh).dropWhile isSpaceCh with
        | ')' :: _ => true
        | _ => false
    | _ => false

def funcOnColSearch : List Char → Bool → Bool
  | [], _ => false
  | c :: rest, prevWord =>
    (!prevWord && isWordCh c && funcCallAt (c :: rest))
      || funcOnColSearch rest (isWordCh c)

/-- `re.search(r'\b\w+\s*\(\s*[\w\.]+\s*\)', s)` as a Boolean. -/
def regexFuncOnCol (s : String) : Bool := funcOnColSearch s.data false

/-- `QueryAnalyzer.detect_anti_patterns`. -/
def QueryAnalyzer_detectAntiPatterns (ts : List Tok) : List Finding :=
  let qt := SQLParser_getQueryType ts
  let l1 :=
    if qt = "SELECT" && ts.any (fun t => normTok t = "*") then
      [Finding.mk "SELECT_STAR" "Avoid using \x27SELECT *\x27."]
    else []
  let wc := SQLParser_extractWhereClause ts
  let l2 :=
    if (qt = "UPDATE" || qt = "DELETE") && pyFalsyOpt wc then
      [Finding.mk "MISSING_WHERE_CLAUSE" ("The " ++ qt ++ " statement lacks a WHERE clause.")]
    else []
  let l3 :=
    if !pyFalsyOpt wc && regexFuncOnCol (wc.getD "") then
      [Finding.mk "FUNCTION_ON_COLUMN_IN_WHERE" "Found a function call on a column in the WHERE clause."]
    else []
  l1 ++ l2 ++ l3

/-- The analysis report dictionary.  `raw_sql` is the key the API caller
injects after `run_analysis`; `run_analysis` itself never sets it. -/
structure Report where
  query_type : String
  tables : List String
  anti_patterns : List Finding
  column_usage : Usage
  join_count : Nat
  raw_sql : Option String
deriving DecidableEq, Repr

/-- `QueryAnalyzer.run_analysis`. -/
def QueryAnalyzer_runAnalysis (ts : List Tok) : Report :=
  let tables := SQLParser_extractTables ts
  { query_type := SQLParser_getQueryType ts
    tables := tables
    anti_patterns := QueryAnalyzer_detectAntiPatterns ts
    column_usage := QueryAnalyzer_analyzeColumnUsage ts
    join_count := if tables.length > 0 then tables.length - 1 else 0
    raw_sql := none }

/-- One iteration of the `IndexAdvisor._map_aliases_to_tables` loop: the
Identifier / IdentifierList additions run while the flag is set; then the
flag is set by FROM / JOIN / LEFT JOIN keywords and cleared by any other
keyword (non-keyword tokens leave it unchanged). -/
def advisorStep (st : AliasMap × Bool) (t : Tok) : AliasMap × Bool :=
  match st with
  | (m, false) => (m, if isTableKw3 t then true else false)
  | (m, true) => (scanAdd t m, if isTableKw3 t then true else if isKw t then false else true)

/-- `IndexAdvisor._map_aliases_to_tables` applied to a parsed statement. -/
def IndexAdvisor_mapAliasesToTables (ts : List Tok) : AliasMap :=
  (ts.foldl advisorStep ([], false)).1

/-- `self.alias_to_table_map.get(alias)` followed by the `if table:`
truthiness test: yields the table only when the alias is present and its
value is truthy. -/
def resolveTruthy (m : AliasMap) (a : String) : Option String :=
  match dget m a with
  | some t => if t = "" then none else some t
  | none => none

/-- `IndexAdvisor._generate_index_name`. -/
def IndexAdvisor_generateIndexName (table : String) (columns : List String) : String :=
  "idx_" ++ table ++ "_" ++ joinSep "_" columns

structure IdxRec where
  statement : String
  reason : String
  impact : String
deriving DecidableEq, Repr

/-- `table_to_cols[table].append(pair)` with dict-style key creation:
append the pair to the entry of `table`, creating the entry at the end
when absent. -/
def upsertApp : List (String × List (String × String)) → String → (String × String) →
    List (String × List (String × String))
  | [], t, p => [(t, [p])]
  | (k, l) :: rest, t, p =>
      if k = t then (k, l ++ [p]) :: rest else (k, l) :: upsertApp rest t p

/-- The `table_to_cols` dict: table → list of (alias, column) pairs of
`where_filters` whose alias resolves to it, in input order. -/
def ttcGo (m : AliasMap) : List (String × List (String × String)) → List (String × String) →
    List (String × List (String × String))
  | acc, [] => acc
  | acc, p :: ps =>
      ttcGo m
        (match resolveTruthy m p.1 with
         | some t => upsertApp acc t p
         | none => acc) ps

/-- `IndexAdvisor.generate_recommendations`, composite phase dict. -/
def tableToCols (m : AliasMap) (wf : List (String × String)) :
    List (String × List (String × String)) :=
  ttcGo m [] wf

/-- The composite recommendation record built for one table. -/
def mkComposite (table : String) (sortedCols : List String) : IdxRec :=
  { statement := "CREATE INDEX " ++ IndexAdvisor_generateIndexName table sortedCols
      ++ " ON " ++ table ++ " (" ++ joinSep ", " sortedCols ++ ");"
    reason := "Columns " ++ joinSep ", " sortedCols
      ++ " are used together in the WHERE clause."
    impact := "High" }

/-- Composite recommendations tagged with the table they were generated
for (the tag is erased in the final flat list). -/
def taggedComposites (m : AliasMap) (wf : List (String × String)) :
    List (String × IdxRec) :=
  if wf.length > 1 then
    (tableToCols m wf).filterMap (fun tc =>
      if tc.2.length > 1 then
        some (tc.1, mkComposite tc.1 (pySortStr (tc.2.map (fun p => p.2))))
      else none)
  else []

/-- `recommended_composite_cols`: every (alias, column) pair consumed by a
composite recommendation. -/
def claimedPairs (m : AliasMap) (wf : List (String × String)) : List (String × String) :=
  if wf.length > 1 then
    (tableToCols m wf).flatMap (fun tc => if tc.2.length > 1 then tc.2 else [])
  else []

/-- The `usage_types` dict of the single-column phase, in insertion
order. -/
def usageTypes : List (String × String) :=
  [("where_filters", "filtering in the WHERE clause"),
   ("join_keys", "a JOIN condition"),
   ("order_by", "sorting in the ORDER BY clause")]

/-- `self.column_usage.get(usage_type, [])`. -/
def usageGet (u : Usage) : String → List (String × String)
  | "where_filters" => u.where_filters
  | "join_keys" => u.join_keys
  | "order_by" => u.order_by
  | "group_by" => u.group_by
  | _ => []

/-- The single-column recommendation record built for one pair. -/
def mkSingle (table column reasonText impact : String) : IdxRec :=
  { statement := "CREATE INDEX " ++ IndexAdvisor_generateIndexName table [column]
      ++ " ON " ++ table ++ " (" ++ column ++ ");"
    reason := "Column \x27" ++ column ++ "\x27 is used for " ++ reasonText ++ "."
    impact := impact }

/-- Single-column recommendations tagged with the (alias, column) pair
they were generated from. -/
def taggedSingles (m : AliasMap) (u : Usage) (claimed : List (String × String)) :
    List ((String × String) × IdxRec) :=
  usageTypes.flatMap (fun ur =>
    (usageGet u ur.1).filterMap (fun p =>
      if p ∈ claimed then none
      else
        match resolveTruthy m p.1 with
        | some t =>
            some (p, mkSingle t p.2 ur.2 (if ur.1 = "order_by" then "Medium" else "High"))
        | none => none))

/-- `IndexAdvisor.generate_recommendations`: composite phase followed by
single-column phase, flattened into one list. -/
def IndexAdvisor_generateRecommendations (m : AliasMap) (u : Usage) : List IdxRec :=
  (taggedComposites m u.where_filters).map (fun x => x.2)
    ++ (taggedSingles m u (claimedPairs m u.where_filters)).map (fun x => x.2)

structure Sugg where
  stype : String
  suggested_sql : String
  reason : String
deriving DecidableEq, Repr

/-- The suggestion built by `_check_union_all_suggestion`. -/
def mkUnionSugg (rawSql : String) : Sugg :=
  { stype := "REPLACE_UNION_WITH_UNION_ALL"
    suggested_sql := pyReplaceFirst rawSql "UNION" "UNION ALL"
    reason := "If duplicate removal is not needed, `UNION ALL` is faster as it avoids a sort/hash operation." }

/-- The `_check_union_all_suggestion` loop: find a top-level `UNION`
keyword; if the next non-whitespace token is not the keyword `ALL`, emit
one suggestion and stop; a `UNION` followed by `ALL` is skipped and the
scan continues. -/
def QueryOptimizer_checkUnionAll (rawSql : String) : List Tok → List Sugg
  | [] => []
  | t :: rest =>
    if matchKw t "UNION" then
      match rest.find? (fun x => !isWs x) with
      | some nt =>
          if matchKw nt "ALL" then QueryOptimizer_checkUnionAll rawSql rest
          else [mkUnionSugg rawSql]
      | none => [mkUnionSugg rawSql]
    else QueryOptimizer_checkUnionAll rawSql rest

/-- The fixed suggestion emitted by `_check_subquery_to_join`. -/
def subqSugg : Sugg :=
  { stype := "REWRITE_SUBQUERY_TO_JOIN"
    suggested_sql := "-- Example Rewrite:\nSELECT t1.*\nFROM table1 t1\nJOIN table2 t2 ON t1.column = t2.column;"
    reason := "Found a subquery in an `IN` clause. Rewriting this as a `JOIN` is often significantly more performant as it allows the database planner to create a better execution strategy." }

/-- `any(t.normalized == 'IN' for t in token.tokens)`. -/
def hasINTok (t : Tok) : Bool := (childrenOf t).any (fun c => normTok c = "IN")

/-- `next((t for t in token.tokens if isinstance(t, Parenthesis)), None)`. -/
def firstParen (t : Tok) : Option Tok := (childrenOf t).find? isParenG

/-- `any(t.match(DML, 'SELECT') for t in subquery_token.tokens)`. -/
def parenHasSelect (p : Tok) : Bool := (childrenOf p).any (fun c => matchDML c "SELECT")

/-- Per-token condition under which `_check_subquery_to_join` fires: a
Comparison whose direct children include an `IN` token and whose first
Parenthesis child contains a `SELECT` DML token. -/
def compInSubq (t : Tok) : Bool :=
  isComparisonG t && hasINTok t &&
    (match firstParen t with
     | some p => parenHasSelect p
     | none => false)

/-- The `_check_subquery_to_join` loop over the direct children of the
WHERE clause: emit on the first match and return. -/
def QueryOptimizer_checkSubqGo : List Tok → List Sugg
  | [] => []
  | t :: rest => if compInSubq t then [subqSugg] else QueryOptimizer_checkSubqGo rest

/-- `QueryOptimizer._check_subquery_to_join`. -/
def QueryOptimizer_checkSubqToJoin (ts : List Tok) : List Sugg :=
  match ts.find? isWhereG with
  | none => []
  | some w => QueryOptimizer_checkSubqGo (childrenOf w)

/-- `QueryOptimizer.suggest_rewrites`. -/
def QueryOptimizer_suggestRewrites (ts : List Tok) (rawSql : String) : List Sugg :=
  QueryOptimizer_checkUnionAll rawSql ts ++ QueryOptimizer_checkSubqToJoin ts

/-- The advisor object state after `IndexAdvisor.__init__`. -/
structure AdvisorState where
  report : Report
  aliasMap : AliasMap
deriving Repr

/-- `IndexAdvisor.__init__`: re-parses `report.get("raw_sql", "")` with
sqlparse and takes statement `[0]`; when the text has no statement (in
particular for the default `""`) the subscript raises IndexError.  The
external `sqlparse.parse` is a parameter `parseFn` mapping raw text to the
list of parsed statements. -/
def IndexAdvisor_init (parseFn : String → List (List Tok)) (r : Report) :
    Except String AdvisorState :=
  match (parseFn (r.raw_sql.getD "")).head? with
  | none => .error "IndexError: list index out of range"
  | some st => .ok { report := r, aliasMap := IndexAdvisor_mapAliasesToTables st }

/-- `SQLParser.__init__`: `sqlparse.parse(sql)[0]`, with the same
IndexError behaviour on empty parses. -/
def SQLParser_init (parseFn : String → List (List Tok)) (sql : String) :
    Except String (List Tok) :=
  match (parseFn sql).head? with
  | none => .error "IndexError: list index out of range"
  | some st => .ok st

structure FullResponse where
  analysis : Report
  index_recommendations : List IdxRec
  rewrite_suggestions : List Sugg
deriving Repr

/-- The core of the `/api/v1/analyze-query` endpoint (without the optional
ML annotation step): parse, analyze, inject `raw_sql`, advise, rewrite. -/
def analyzeQueryEndpoint (parseFn : String → List (List Tok)) (sql : String) :
    Except String FullResponse := do
  let ts ← SQLParser_init parseFn sql
  let report0 := QueryAnalyzer_runAnalysis ts
  let report := { report0 with raw_sql := some sql }
  let adv ← IndexAdvisor_init parseFn report
  let recs := IndexAdvisor_generateRecommendations adv.aliasMap report.column_usage
  let rewrites := QueryOptimizer_suggestRewrites ts sql
  .ok { analysis := report
        index_recommendations := recs
        rewrite_suggestions := rewrites }

/-- Spec condition, C4: position holds a top-level `UNION` keyword whose
next non-whitespace sibling is not the keyword `ALL`. -/
def bareUnionHere (t : Tok) (rest : List Tok) : Bool :=
  matchKw t "UNION" &&
    (match rest.find? (fun x => !isWs x) with
     | some nt => !matchKw nt "ALL"
     | none => true)

/-- Spec condition, C4: some top-level `UNION` is not followed by `ALL`. -/
def existsBareUnion : List Tok → Bool
  | [] => false
  | t :: rest => bareUnionHere t rest || existsBareUnion rest

/-- Spec condition, C5 (claim wording): a Comparison containing an `IN`
token and containing (any) parenthesized group whose contents include a
SELECT keyword. -/
def specCompMatch (t : Tok) : Bool :=
  isComparisonG t && hasINTok t &&
    (childrenOf t).any (fun c => isParenG c && parenHasSelect c)

mutual
/-- Spec condition, C5 (claim wording): such a Comparison anywhere in a
subtree. -/
def deepHasMatch : Tok → Bool
  | .atom _ _ => false
  | .group k i ch => specCompMatch (.group k i ch) || deepHasMatchL ch

def deepHasMatchL : List Tok → Bool
  | [] => false
  | t :: ts => deepHasMatch t || deepHasMatchL ts
end

/-- Spec condition, C5 (claim wording): the statement's WHERE subtree
contains a matching Comparison node. -/
def whereSubtreeHasCompIn (ts : List Tok) : Bool :=
  ts.any (fun t => isWhereG t && deepHasMatch t)

/-- Amended condition, C5: the direct children of the first top-level
WHERE clause contain a Comparison with an `IN` token whose first
Parenthesis child contains a SELECT keyword. -/
def amendedSubqCond (ts : List Tok) : Bool :=
  match ts.find? isWhereG with
  | some w => (childrenOf w).any compInSubq
  | none => false

/-- Spec condition, C6/C7 helper: a finding of the given type occurs. -/
def hasFindingType (l : List Finding) (ty : String) : Bool :=
  l.any (fun f => f.ftype = ty)

/-- Well-formedness used for C7: every top-level Where group renders to
non-empty text (sqlparse Where groups always contain at least the WHERE
keyword itself). -/
def whereRendersNonempty (ts : List Tok) : Bool :=
  ts.all (fun t => !isWhereG t || !(render t == ""))

/-- C2: number of distinct extracted table names. -/
def distinctTableCount (ts : List Tok) : Nat :=
  (((SQLParser_getTablesAndAliases ts).map (fun kv => kv.2)).dedup).length

/-- C6: drop the (alias, column) pairs whose alias is absent from the
alias table. -/
def dropUnresolvable (m : AliasMap) (l : List (String × String)) : List (String × String) :=
  l.filter (fun p => (dget m p.1).isSome)

def filterResolvable (m : AliasMap) (u : Usage) : Usage :=
  ⟨dropUnresolvable m u.where_filters, dropUnresolvable m u.join_keys,
   dropUnresolvable m u.order_by, dropUnresolvable m u.group_by⟩

/-- C9 triggers: tokens that can feed each bucket. -/
def hasWhereTrigger (ts : List Tok) : Bool := ts.any isWhereG

def hasOnTrigger (ts : List Tok) : Bool :=
  ts.any (fun t => isKw t && normTok t = "ON")

def hasOrderTrigger (ts : List Tok) : Bool :=
  ts.any (fun t => isKw t && strContains (normTok t) "ORDER BY")

def hasGroupTrigger (ts : List Tok) : Bool :=
  ts.any (fun t => isKw t && strContains (normTok t) "GROUP BY")

/-- C3: synchronisation automaton.  State `N`: both scans have the flag
clear; `K`: both set; `D`: the parser flag is clear but the advisor flag
is still set (the advisor keeps it through non-keyword tokens). -/
inductive SyncSt where
  | N | K | D
deriving DecidableEq, Repr

def isIdentLike (t : Tok) : Bool := isIdentG t || isIdentListG t

/-- C3: one step of the synchronisation automaton; `none` marks a token on
which the two scans can diverge. -/
def syncStep : SyncSt → Tok → Option SyncSt
  | .N, t =>
      if isTableKw3 t then some .K
      else if isTableKw5 t then none
      else some .N
  | .K, t =>
      if isIdentLike t then (if normTok t = "," then some .K else some .D)
      else if isTableKw3 t then some .K
      else if isTableKw5 t then none
      else if isKw t then (if normTok t = "," then none else some .N)
      else if isWs t || normTok t = "," then some .K
      else some .D
  | .D, t =>
      if isIdentLike t then none
      else if isTableKw3 t then some .K
      else if isTableKw5 t then none
      else if isKw t then some .N
      else some .D

def syncOK : SyncSt → List Tok → Bool
  | _, [] => true
  | s, t :: ts =>
      match syncStep s t with
      | none => false
      | some s2 => syncOK s2 ts

def wsT : Tok := .atom .whitespace " "

def kwT (v : String) : Tok := .atom .keyword v

def dmlT (v : String) : Tok := .atom .dml v

/-- A table reference in a FROM/JOIN list. -/
def tblT (real : String) (al : Option String) : Tok :=
  .group .ident ⟨real, al, pyOr al real, none⟩ []

/-- A (possibly qualified) column reference. -/
def colT (parent : Option String) (nm : String) : Tok :=
  .group .ident ⟨nm, none, nm, parent⟩ []

def c8wParse : String → List (List Tok) :=
  fun _ => [[dmlT "SELECT", wsT, .atom .wildcard "*", wsT, kwT "FROM", wsT, tblT "t" none]]

def c10wParse : String → List (List Tok) := fun _ => []

def c10wReport : Report :=
  { query_type := "UPDATE", tables := ["t"], anti_patterns := [],
    column_usage := ⟨[], [], [], []⟩, join_count := 0, raw_sql := none }

/-- C5 counterexample input 1: the matching Comparison sits inside a
Parenthesis inside the WHERE clause (WHERE subtree, but not a direct
child), as in `WHERE (x IN (SELECT id))`. -/
def c5ex1 : List Tok :=
  [dmlT "SELECT", wsT, colT none "a", wsT, kwT "FROM", wsT, tblT "t" none, wsT,
   .group .whereG noInfo
     [kwT "WHERE", wsT,
      .group .parenthesis noInfo
        [.atom .punctuation "(",
         .group .comparison noInfo
           [colT none "x", wsT, kwT "IN", wsT,
            .group .parenthesis noInfo
              [.atom .punctuation "(", dmlT "SELECT", wsT, colT none "id", .atom .punctuation ")"]],
         .atom .punctuation ")"]]]

/-- C5 counterexample input 2: the Comparison is a direct child of WHERE
and contains a parenthesized group with SELECT, but its first Parenthesis
child contains no SELECT, so the code skips it. -/
def c5ex2 : List Tok :=
  [dmlT "SELECT", wsT, colT none "a", wsT, kwT "FROM", wsT, tblT "t" none, wsT,
   .group .whereG noInfo
     [kwT "WHERE", wsT,
      .group .comparison noInfo
        [colT none "x", wsT, kwT "IN", wsT,
         .group .parenthesis noInfo
           [.atom .punctuation "(", .atom .literal "1", .atom .punctuation ")"],
         wsT,
         .group .parenthesis noInfo
           [.atom .punctuation "(", dmlT "SELECT", .atom .punctuation ")"]]]]

def c7wTs : List Tok :=
  [dmlT "DELETE", wsT, kwT "FROM", wsT, tblT "orders" none, .atom .punctuation ";"]

def c9wTs : List Tok := [dmlT "SELECT", wsT, colT none "a", wsT, kwT "FROM", wsT, tblT "t" none]

/-- The partial map applied to each `table_to_cols` entry in the
composite phase. -/
def compMap (tc : String × List (String × String)) : Option (String × IdxRec) :=
  if tc.2.length > 1 then
    some (tc.1, mkComposite tc.1 (pySortStr (tc.2.map (fun p => p.2))))
  else none

def c1wM : AliasMap := [("u", "users")]

def c1wU : Usage := ⟨[("u", "a"), ("u", "b")], [], [], []⟩

def flagsOf : SyncSt → Bool × Bool
  | .N => (false, false)
  | .K => (true, true)
  | .D => (false, true)

/-- C3 counterexample input: `FROM a RIGHT JOIN b`.  The parser's scan
handles `RIGHT JOIN` (and would handle `INNER JOIN`), the advisor's
rebuilt scan does not, so the two alias tables differ. -/
def c3cex : List Tok :=
  [kwT "FROM", wsT, tblT "a" none, wsT, kwT "RIGHT JOIN", wsT, tblT "b" none]

def c3wTs : List Tok :=
  [dmlT "SELECT", wsT, colT (some "u") "name", wsT, kwT "FROM", wsT,
   tblT "users" (some "u"), wsT, kwT "JOIN", wsT, tblT "orders" (some "o"),
   .atom .punctuation ";"]

/-! ### String utilities modelling the Python primitives used by the code -/

/-! ### Statement Parser (backend/core/parser.py) -/

/-! ### Clause-Usage Classifier and Anti-Pattern Detector
(backend/core/analyser.py) -/

/-! ### Index Advisor (backend/core/index_advisor.py) -/

/-! ### Rewrite Suggestion Engine (backend/core/optimizer.py) -/

/-! ### API pipeline (backend/api/main.py, core of `analyze_query`) -/

/-! ### Spec-side conditions (stated from the specification's wording, to
be compared against the code's behaviour) -/

/-! ### Concrete sample tokens for witnesses and counterexamples -/

/-! ### Basic lemmas -/

theorem length_pyInsStr (x : String) : ∀ l : List String, (pyInsStr x l).length = l.length + 1
  | [] => rfl
  | y :: ys => by
      unfold pyInsStr
      split
      · simp
      · simp [length_pyInsStr x ys]

theorem length_pySortStr_go : ∀ (l : List String) (acc : List String),
    (l.foldl (fun acc x => pyInsStr x acc) acc).length = acc.length + l.length
  | [], acc => by simp
  | x :: xs, acc => by
      simp [List.foldl_cons, length_pySortStr_go xs (pyInsStr x acc), length_pyInsStr]
      omega

theorem length_pySortStr (l : List String) : (pySortStr l).length = l.length := by
  unfold pySortStr
  rw [length_pySortStr_go]
  simp

/-! ### Claim C2 -/

/-- C2: for every input statement, the `join_count` field of the analysis
report equals `max(0, n - 1)`, where `n` is the number of distinct table
names extracted from the statement. -/
theorem c2_join_count_law (ts : List Tok) :
    ((QueryAnalyzer_runAnalysis ts).join_count : Int)
      = max 0 ((distinctTableCount ts : Int) - 1) := by
  have hlen : (SQLParser_extractTables ts).length = distinctTableCount ts :=
    length_pySortStr _
  simp only [QueryAnalyzer_runAnalysis]
  rw [hlen, max_def]
  split_ifs <;> push_cast <;> omega

/-! ### Claim C8 -/

/-- C8: analyzing identical input text twice yields identical reports: the
whole pipeline (statement kind, tables, anti-patterns, usage map, join
count, index recommendations, rewrite suggestions) is a pure function of
the input text and of the external parser. -/
theorem c8_determinism (parseFn : String → List (List Tok)) (sql : String)
    (r1 r2 : Except String FullResponse)
    (h1 : analyzeQueryEndpoint parseFn sql = r1)
    (h2 : analyzeQueryEndpoint parseFn sql = r2) : r1 = r2 := by
  rw [← h1, ← h2]

theorem c8_witness :
    analyzeQueryEndpoint c8wParse "SELECT * FROM t" = analyzeQueryEndpoint c8wParse "SELECT * FROM t" :=
  c8_determinism c8wParse "SELECT * FROM t" _ _ rfl rfl

/-! ### Claim C10 -/

/-- C10: a report without the `raw_sql` key (as produced by
`run_analysis` itself, whose output never sets it) makes the Index
Advisor constructor fail with an uncaught IndexError rather than return an
empty recommendation list: `sqlparse.parse` of the default `""` yields no
statement, and the `[0]` subscript fails. -/
theorem c10_advisor_requires_raw_sql (parseFn : String → List (List Tok)) (r : Report)
    (hp : parseFn "" = []) (hr : r.raw_sql = none) :
    IndexAdvisor_init parseFn r = .error "IndexError: list index out of range" := by
  unfold IndexAdvisor_init
  rw [hr]
  simp [hp]

theorem c10_witness :
    c10wParse "" = [] ∧ c10wReport.raw_sql = none
      ∧ IndexAdvisor_init c10wParse c10wReport = .error "IndexError: list index out of range" :=
  ⟨rfl, rfl, c10_advisor_requires_raw_sql c10wParse c10wReport rfl rfl⟩

/-! ### Claim C4 -/

theorem checkUnionAll_eq (raw : String) : ∀ ts : List Tok,
    QueryOptimizer_checkUnionAll raw ts = if existsBareUnion ts then [mkUnionSugg raw] else []
  | [] => rfl
  | t :: rest => by
      unfold QueryOptimizer_checkUnionAll existsBareUnion bareUnionHere
      cases hu : matchKw t "UNION" with
      | false => simpa [hu] using checkUnionAll_eq raw rest
      | true =>
        cases hf : rest.find? (fun x => !isWs x) with
        | none => simp [hu, hf]
        | some nt =>
          cases ha : matchKw nt "ALL" with
          | false => simp [hu, hf, ha]
          | true => simpa [hu, hf, ha] using checkUnionAll_eq raw rest

theorem checkSubqGo_eq : ∀ l : List Tok,
    QueryOptimizer_checkSubqGo l = if l.any compInSubq then [subqSugg] else []
  | [] => rfl
  | t :: rest => by
      unfold QueryOptimizer_checkSubqGo
      cases hc : compInSubq t with
      | true => simp [hc]
      | false => simpa [hc] using checkSubqGo_eq rest

theorem checkSubqToJoin_eq (ts : List Tok) :
    QueryOptimizer_checkSubqToJoin ts = if amendedSubqCond ts then [subqSugg] else [] := by
  unfold QueryOptimizer_checkSubqToJoin amendedSubqCond
  cases hw : ts.find? isWhereG with
  | none => rfl
  | some w => simp [checkSubqGo_eq]

/-- C4: the rewrite engine emits exactly one `REPLACE_UNION_WITH_UNION_ALL`
suggestion, whose suggested SQL is the raw text with the first textual
occurrence of `UNION` replaced by `UNION ALL`, precisely when some
top-level `UNION` keyword is not followed (ignoring whitespace) by the
keyword `ALL`; otherwise it emits zero such suggestions. -/
theorem c4_union_rule (ts : List Tok) (raw : String) :
    ((QueryOptimizer_suggestRewrites ts raw).filter
        (fun s => s.stype = "REPLACE_UNION_WITH_UNION_ALL")
      = if existsBareUnion ts then [mkUnionSugg raw] else [])
    ∧ (mkUnionSugg raw).suggested_sql = pyReplaceFirst raw "UNION" "UNION ALL"
    ∧ (mkUnionSugg raw).stype = "REPLACE_UNION_WITH_UNION_ALL" := by
  refine ⟨?_, rfl, rfl⟩
  unfold QueryOptimizer_suggestRewrites
  rw [List.filter_append, checkUnionAll_eq, checkSubqToJoin_eq]
  split_ifs <;> simp [mkUnionSugg, subqSugg]

/-! ### Claim C5 -/

/-- C5 counterexample: both inputs satisfy the claim's premise (the WHERE
subtree contains a Comparison with an `IN` token and a parenthesized group
containing SELECT), yet the engine emits zero `REWRITE_SUBQUERY_TO_JOIN`
suggestions, not exactly one. -/
theorem c5_counterexample :
    (whereSubtreeHasCompIn c5ex1 = true
       ∧ (QueryOptimizer_suggestRewrites c5ex1 "q1").filter
           (fun s => s.stype = "REWRITE_SUBQUERY_TO_JOIN") = [])
    ∧ (whereSubtreeHasCompIn c5ex2 = true
       ∧ (QueryOptimizer_suggestRewrites c5ex2 "q2").filter
           (fun s => s.stype = "REWRITE_SUBQUERY_TO_JOIN") = []) := by decide

/-- C5 amended: the engine emits exactly one `REWRITE_SUBQUERY_TO_JOIN`
suggestion (the fixed rewrite template plus reason) precisely when the
direct children of the first top-level WHERE clause contain a Comparison
node that has an `IN` token among its children and whose first Parenthesis
child contains a SELECT keyword; otherwise it emits none. -/
theorem c5_subquery_rule_amended (ts : List Tok) (raw : String) :
    (QueryOptimizer_suggestRewrites ts raw).filter
        (fun s => s.stype = "REWRITE_SUBQUERY_TO_JOIN")
      = if amendedSubqCond ts then [subqSugg] else [] := by
  unfold QueryOptimizer_suggestRewrites
  rw [List.filter_append, checkUnionAll_eq, checkSubqToJoin_eq]
  split_ifs <;> simp [mkUnionSugg, subqSugg]

/-! ### Claim C7 -/

theorem falsy_extractWhere (ts : List Tok) (h : whereRendersNonempty ts = true) :
    pyFalsyOpt (SQLParser_extractWhereClause ts) = true ↔ SQLParser_extractWhereClause ts = none := by
  unfold SQLParser_extractWhereClause
  cases hf : ts.find? isWhereG with
  | none => simp [pyFalsyOpt]
  | some w =>
      have hmem : w ∈ ts := List.mem_of_find?_eq_some hf
      have hw : isWhereG w = true := List.find?_some hf
      have hne : ¬(render w = "") := by
        have h2 := List.all_eq_true.mp h w hmem
        simp [hw] at h2
        simpa using h2
      simp [pyFalsyOpt, hne]

theorem any_if_singleton {α : Type} (c : Bool) (x : α) (p : α → Bool) :
    (if c then [x] else ([] : List α)).any p = (c && p x) := by
  cases c <;> simp

/-- C7: the anti-pattern findings contain a `MISSING_WHERE_CLAUSE` finding
iff the statement kind is UPDATE or DELETE and no WHERE clause is
extracted (assuming, as sqlparse guarantees, that a Where group renders to
non-empty text). -/
theorem c7_missing_where_iff (ts : List Tok) (h : whereRendersNonempty ts = true) :
    hasFindingType (QueryAnalyzer_detectAntiPatterns ts) "MISSING_WHERE_CLAUSE" = true
      ↔ ((SQLParser_getQueryType ts = "UPDATE" ∨ SQLParser_getQueryType ts = "DELETE")
          ∧ SQLParser_extractWhereClause ts = none) := by
  have hfalsy := falsy_extractWhere ts h
  have hne1 : ("SELECT_STAR" : String) ≠ "MISSING_WHERE_CLAUSE" := by decide
  have hne2 : ("FUNCTION_ON_COLUMN_IN_WHERE" : String) ≠ "MISSING_WHERE_CLAUSE" := by decide
  unfold hasFindingType QueryAnalyzer_detectAntiPatterns
  simp only [List.any_append, any_if_singleton]
  simp [hne1, hne2, ← hfalsy]

theorem c7_witness :
    whereRendersNonempty c7wTs = true
      ∧ (hasFindingType (QueryAnalyzer_detectAntiPatterns c7wTs) "MISSING_WHERE_CLAUSE" = true
          ↔ ((SQLParser_getQueryType c7wTs = "UPDATE" ∨ SQLParser_getQueryType c7wTs = "DELETE")
              ∧ SQLParser_extractWhereClause c7wTs = none)) :=
  ⟨by decide, c7_missing_where_iff c7wTs (by decide)⟩

/-! ### Claim C9 -/

theorem find?_append {α : Type} (p : α → Bool) : ∀ (l1 l2 : List α),
    (l1 ++ l2).find? p = ((l1.find? p).elim (l2.find? p) some)
  | [], l2 => by simp
  | x :: xs, l2 => by
      by_cases hx : p x = true
      · simp [List.find?_cons_of_pos _ hx, hx]
      · have hx2 : ¬p x = true := hx
        rw [List.cons_append, List.find?_cons_of_neg _ hx2, List.find?_cons_of_neg _ hx2,
          find?_append p xs l2]

theorem acuGo_wf_const : ∀ (l : List Tok) (b : Bool) (s : Usage),
    (∀ t ∈ l, isWhereG t = false) →
    (QueryAnalyzer_acuGo l b s).where_filters = s.where_filters := by
  intro l
  induction l with
  | nil => intro b s _; rfl
  | cons t rest ih =>
    intro b s hall
    have hw : isWhereG t = false := hall t (by simp)
    have hrest : ∀ x ∈ rest, isWhereG x = false := fun x hx => hall x (by simp [hx])
    unfold QueryAnalyzer_acuGo
    split_ifs with h1 h2 h3 h4 h5 h6
    · exact ih _ _ hrest
    · exact ih _ _ hrest
    · rw [h3] at hw; cases hw
    · cases hf : rest.find? (fun x => !isWs x) <;> simp only [hf] <;> exact ih _ _ hrest
    · cases hf : rest.find? (fun x => !isWs x) <;> simp only [hf] <;> exact ih _ _ hrest
    · exact ih _ _ hrest
    · exact ih _ _ hrest

theorem acuGo_jk_const : ∀ (l : List Tok) (s : Usage),
    (∀ t ∈ l, (isKw t && normTok t = "ON") = false) →
    (QueryAnalyzer_acuGo l false s).join_keys = s.join_keys := by
  intro l
  induction l with
  | nil => intro s _; rfl
  | cons t rest ih =>
    intro s hall
    have hon : (isKw t && normTok t = "ON") = false := hall t (by simp)
    have hrest : ∀ x ∈ rest, (isKw x && normTok x = "ON") = false :=
      fun x hx => hall x (by simp [hx])
    unfold QueryAnalyzer_acuGo
    split_ifs with h1 h2 h3 h4 h5 h6
    · rw [hon] at h1; cases h1
    · simp at h2
    · exact ih _ hrest
    · cases hf : rest.find? (fun x => !isWs x) <;> simp only [hf] <;> exact ih _ hrest
    · cases hf : rest.find? (fun x => !isWs x) <;> simp only [hf] <;> exact ih _ hrest
    · exact ih _ hrest
    · exact ih _ hrest

theorem acuGo_ob_const : ∀ (l : List Tok) (b : Bool) (s : Usage),
    (∀ t ∈ l, (isKw t && strContains (normTok t) "ORDER BY") = false) →
    (QueryAnalyzer_acuGo l b s).order_by = s.order_by := by
  intro l
  induction l with
  | nil => intro b s _; rfl
  | cons t rest ih =>
    intro b s hall
    have hob : (isKw t && strContains (normTok t) "ORDER BY") = false := hall t (by simp)
    have hrest : ∀ x ∈ rest, (isKw x && strContains (normTok x) "ORDER BY") = false :=
      fun x hx => hall x (by simp [hx])
    unfold QueryAnalyzer_acuGo
    split_ifs with h1 h2 h3 h4 h5 h6
    · exact ih _ _ hrest
    · exact ih _ _ hrest
    · exact ih _ _ hrest
    · rw [h4, h5] at hob; simp at hob
    · cases hf : rest.find? (fun x => !isWs x) <;> simp only [hf] <;> exact ih _ _ hrest
    · exact ih _ _ hrest
    · exact ih _ _ hrest

theorem acuGo_gb_const : ∀ (l : List Tok) (b : Bool) (s : Usage),
    (∀ t ∈ l, (isKw t && strContains (normTok t) "GROUP BY") = false) →
    (QueryAnalyzer_acuGo l b s).group_by = s.group_by := by
  intro l
  induction l with
  | nil => intro b s _; rfl
  | cons t rest ih =>
    intro b s hall
    have hgb : (isKw t && strContains (normTok t) "GROUP BY") = false := hall t (by simp)
    have hrest : ∀ x ∈ rest, (isKw x && strContains (normTok x) "GROUP BY") = false :=
      fun x hx => hall x (by simp [hx])
    unfold QueryAnalyzer_acuGo
    split_ifs with h1 h2 h3 h4 h5 h6
    · exact ih _ _ hrest
    · exact ih _ _ hrest
    · exact ih _ _ hrest
    · cases hf : rest.find? (fun x => !isWs x) <;> simp only [hf] <;> exact ih _ _ hrest
    · rw [h4, h6] at hgb; simp at hgb
    · exact ih _ _ hrest
    · exact ih _ _ hrest

theorem acuGo_append_ob : ∀ (l : List Tok) (b : Bool) (s : Usage),
    QueryAnalyzer_acuGo (l ++ [kwT "ORDER BY"]) b s = QueryAnalyzer_acuGo l b s := by
  intro l
  induction l with
  | nil =>
    intro b s
    have h1 : (isKw (kwT "ORDER BY") && normTok (kwT "ORDER BY") = "ON") = false := by decide
    have h2 : isComparisonG (kwT "ORDER BY") = false := by decide
    have h3 : isWhereG (kwT "ORDER BY") = false := by decide
    have h4 : isKw (kwT "ORDER BY") = true := by decide
    have h5 : strContains (normTok (kwT "ORDER BY")) "ORDER BY" = true := by decide
    simp [QueryAnalyzer_acuGo, h1, h2, h3, h4, h5]
  | cons t rest ih =>
    intro b s
    show QueryAnalyzer_acuGo (t :: (rest ++ [kwT "ORDER BY"])) b s
      = QueryAnalyzer_acuGo (t :: rest) b s
    unfold QueryAnalyzer_acuGo
    split_ifs with h1 h2 h3 h4 h5 h6
    · exact ih _ _
    · exact ih _ _
    · exact ih _ _
    · rw [find?_append]
      cases hf : rest.find? (fun x => !isWs x) with
      | some nt => simp only [Option.elim, hf]; exact ih _ _
      | none =>
          simp only [Option.elim, hf, List.find?]
          have hws : (!isWs (kwT "ORDER BY")) = true := by decide
          simp only [hws]
          have hid : QueryAnalyzer_findIdents (kwT "ORDER BY") s.order_by = s.order_by := rfl
          rw [hid]
          exact ih _ _
    · rw [find?_append]
      cases hf : rest.find? (fun x => !isWs x) with
      | some nt => simp only [Option.elim, hf]; exact ih _ _
      | none =>
          simp only [Option.elim, hf, List.find?]
          have hws : (!isWs (kwT "ORDER BY")) = true := by decide
          simp only [hws]
          have hid : QueryAnalyzer_findIdents (kwT "ORDER BY") s.group_by = s.group_by := rfl
          rw [hid]
          exact ih _ _
    · exact ih _ _
    · exact ih _ _

/-- C9: the Clause-Usage Classifier is total and returns empty buckets for
roles with no matching clause: with no Where group the where bucket is
empty, with no ON keyword the join bucket is empty, with no ORDER BY /
GROUP BY keyword those buckets are empty; and a trailing ORDER BY keyword
with no following token is processed without error and without effect. -/
theorem c9_classifier_total (ts : List Tok) :
    (hasWhereTrigger ts = false → (QueryAnalyzer_analyzeColumnUsage ts).where_filters = [])
    ∧ (hasOnTrigger ts = false → (QueryAnalyzer_analyzeColumnUsage ts).join_keys = [])
    ∧ (hasOrderTrigger ts = false → (QueryAnalyzer_analyzeColumnUsage ts).order_by = [])
    ∧ (hasGroupTrigger ts = false → (QueryAnalyzer_analyzeColumnUsage ts).group_by = [])
    ∧ QueryAnalyzer_analyzeColumnUsage (ts ++ [kwT "ORDER BY"])
        = QueryAnalyzer_analyzeColumnUsage ts := by
  refine ⟨?_, ?_, ?_, ?_, ?_⟩
  · intro h
    have hall : ∀ t ∈ ts, isWhereG t = false := by
      intro t ht
      cases hwt : isWhereG t
      · rfl
      · have h2 : hasWhereTrigger ts = true := by
          unfold hasWhereTrigger
          exact List.any_eq_true.mpr ⟨t, ht, hwt⟩
        rw [h] at h2; cases h2
    have hz := acuGo_wf_const ts false ⟨[], [], [], []⟩ hall
    simp [QueryAnalyzer_analyzeColumnUsage, hz, pySortPairs]
  · intro h
    have hall : ∀ t ∈ ts, (isKw t && normTok t = "ON") = false := by
      intro t ht
      cases hwt : (isKw t && normTok t = "ON")
      · rfl
      · have h2 : hasOnTrigger ts = true := by
          unfold hasOnTrigger
          exact List.any_eq_true.mpr ⟨t, ht, hwt⟩
        rw [h] at h2; cases h2
    have hz := acuGo_jk_const ts ⟨[], [], [], []⟩ hall
    simp [QueryAnalyzer_analyzeColumnUsage, hz, pySortPairs]
  · intro h
    have hall : ∀ t ∈ ts, (isKw t && strContains (normTok t) "ORDER BY") = false := by
      intro t ht
      cases hwt : (isKw t && strContains (normTok t) "ORDER BY")
      · rfl
      · have h2 : hasOrderTrigger ts = true := by
          unfold hasOrderTrigger
          exact List.any_eq_true.mpr ⟨t, ht, hwt⟩
        rw [h] at h2; cases h2
    have hz := acuGo_ob_const ts false ⟨[], [], [], []⟩ hall
    simp [QueryAnalyzer_analyzeColumnUsage, hz, pySortPairs]
  · intro h
    have hall : ∀ t ∈ ts, (isKw t && strContains (normTok t) "GROUP BY") = false := by
      intro t ht
      cases hwt : (isKw t && strContains (normTok t) "GROUP BY")
      · rfl
      · have h2 : hasGroupTrigger ts = true := by
          unfold hasGroupTrigger
          exact List.any_eq_true.mpr ⟨t, ht, hwt⟩
        rw [h] at h2; cases h2
    have hz := acuGo_gb_const ts false ⟨[], [], [], []⟩ hall
    simp [QueryAnalyzer_analyzeColumnUsage, hz, pySortPairs]
  · unfold QueryAnalyzer_analyzeColumnUsage
    rw [acuGo_append_ob]

theorem c9_witness :
    (QueryAnalyzer_analyzeColumnUsage c9wTs).where_filters = []
    ∧ (QueryAnalyzer_analyzeColumnUsage c9wTs).join_keys = []
    ∧ (QueryAnalyzer_analyzeColumnUsage c9wTs).order_by = []
    ∧ (QueryAnalyzer_analyzeColumnUsage c9wTs).group_by = []
    ∧ QueryAnalyzer_analyzeColumnUsage (c9wTs ++ [kwT "ORDER BY"])
        = QueryAnalyzer_analyzeColumnUsage c9wTs :=
  ⟨(c9_classifier_total c9wTs).1 (by decide),
   (c9_classifier_total c9wTs).2.1 (by decide),
   (c9_classifier_total c9wTs).2.2.1 (by decide),
   (c9_classifier_total c9wTs).2.2.2.1 (by decide),
   (c9_classifier_total c9wTs).2.2.2.2⟩

/-! ### Shared lemmas on the advisor's table_to_cols dictionary -/

theorem ttcGo_step (m : AliasMap) (q : String × String) (rest : List (String × String))
    (acc : List (String × List (String × String))) :
    ttcGo m acc (q :: rest)
      = ttcGo m (match resolveTruthy m q.1 with
                 | some t => upsertApp acc t q
                 | none => acc) rest := rfl

theorem ttcGo_dropUnres (m : AliasMap) : ∀ (wf : List (String × String)) acc,
    ttcGo m acc (dropUnresolvable m wf) = ttcGo m acc wf := by
  intro wf
  induction wf with
  | nil => intro acc; rfl
  | cons p ps ih =>
    intro acc
    cases hd : dget m p.1 with
    | none =>
      have hrt : resolveTruthy m p.1 = none := by unfold resolveTruthy; rw [hd]
      have hfl : dropUnresolvable m (p :: ps) = dropUnresolvable m ps := by
        unfold dropUnresolvable
        simp [List.filter_cons, hd]
      rw [hfl, ih, ttcGo_step, hrt]
    | some v =>
      have hfl : dropUnresolvable m (p :: ps) = p :: dropUnresolvable m ps := by
        unfold dropUnresolvable
        simp [List.filter_cons, hd]
      rw [hfl, ttcGo_step, ttcGo_step, ih]

theorem find?_upsertApp (t : String) (p : String × String) (T : String) :
    ∀ acc : List (String × List (String × String)),
    (upsertApp acc t p).find? (fun tc => tc.1 = T)
      = if t = T then
          (match acc.find? (fun tc => tc.1 = T) with
           | some tc => some (T, tc.2 ++ [p])
           | none => some (T, [p]))
        else acc.find? (fun tc => tc.1 = T)
  | [] => by
      by_cases ht : t = T
      · subst ht; simp [upsertApp, List.find?]
      · simp [upsertApp, List.find?, ht]
  | (k, l) :: rest => by
      by_cases hk : k = t
      · subst hk
        by_cases ht : k = T
        · subst ht; simp [upsertApp, List.find?]
        · simp [upsertApp, List.find?, ht]
      · by_cases hT : k = T
        · subst hT
          have ht2 : ¬(t = k) := fun h => hk h.symm
          simp [upsertApp, hk, List.find?, ht2]
        · simp [upsertApp, hk, List.find?, hT, find?_upsertApp t p T rest]

theorem ttcGo_find (m : AliasMap) (T : String) : ∀ (wf : List (String × String)) acc,
    (ttcGo m acc wf).find? (fun tc => tc.1 = T)
      = (match acc.find? (fun tc => tc.1 = T) with
         | some tc => some (T, tc.2 ++ wf.filter (fun p => resolveTruthy m p.1 = some T))
         | none =>
             if wf.filter (fun p => resolveTruthy m p.1 = some T) = [] then none
             else some (T, wf.filter (fun p => resolveTruthy m p.1 = some T)))
  | [] => by
      intro acc
      cases hf : acc.find? (fun tc => tc.1 = T) with
      | none => simp [ttcGo, hf]
      | some tc =>
          have hpred := List.find?_some hf
          have h1 : tc.1 = T := by simpa using hpred
          obtain ⟨a, b⟩ := tc
          simp only at h1
          subst h1
          simp [ttcGo, hf]
  | p :: ps => by
      intro acc
      rw [ttcGo_step]
      cases hr : resolveTruthy m p.1 with
      | none =>
        have hnotT : ¬(resolveTruthy m p.1 = some T) := by rw [hr]; simp
        have hfc : List.filter (fun q => decide (resolveTruthy m q.1 = some T)) (p :: ps)
            = List.filter (fun q => decide (resolveTruthy m q.1 = some T)) ps := by
          simp [List.filter_cons, hnotT]
        rw [ttcGo_find m T ps acc, hfc]
      | some t =>
        by_cases ht : t = T
        · have hrT : resolveTruthy m p.1 = some T := by rw [hr, ht]
          have hfc : List.filter (fun q => decide (resolveTruthy m q.1 = some T)) (p :: ps)
              = p :: List.filter (fun q => decide (resolveTruthy m q.1 = some T)) ps := by
            simp [List.filter_cons, hrT]
          rw [ttcGo_find m T ps (upsertApp acc t p), find?_upsertApp, if_pos ht, hfc]
          cases hf : acc.find? (fun tc => tc.1 = T) with
          | some tc => simp [hf, List.append_assoc]
          | none => simp [hf]
        · have hnotT : ¬(resolveTruthy m p.1 = some T) := by
            rw [hr]; simp [ht]
          have hfc : List.filter (fun q => decide (resolveTruthy m q.1 = some T)) (p :: ps)
              = List.filter (fun q => decide (resolveTruthy m q.1 = some T)) ps := by
            simp [List.filter_cons, hnotT]
          rw [ttcGo_find m T ps (upsertApp acc t p), find?_upsertApp, if_neg ht, hfc]

theorem tableToCols_find (m : AliasMap) (T : String) (wf : List (String × String)) :
    (tableToCols m wf).find? (fun tc => tc.1 = T)
      = if wf.filter (fun p => resolveTruthy m p.1 = some T) = [] then none
        else some (T, wf.filter (fun p => resolveTruthy m p.1 = some T)) := by
  unfold tableToCols
  rw [ttcGo_find]
  simp [List.find?]

theorem keys_upsertApp (t : String) (p : String × String) :
    ∀ acc : List (String × List (String × String)),
    (upsertApp acc t p).map Prod.fst
      = if t ∈ acc.map Prod.fst then acc.map Prod.fst else acc.map Prod.fst ++ [t]
  | [] => by simp [upsertApp]
  | (k, l) :: rest => by
      by_cases hk : k = t
      · subst hk; simp [upsertApp]
      · have hne : ¬(t = k) := fun h => hk h.symm
        simp only [upsertApp, if_neg hk, List.map_cons, keys_upsertApp t p rest]
        by_cases hmem : t ∈ rest.map Prod.fst
        · simp [hmem, List.mem_cons, hne]
        · simp [hmem, List.mem_cons, hne]

theorem ttcGo_keys_nodup (m : AliasMap) : ∀ (wf : List (String × String)) acc,
    (acc.map Prod.fst).Nodup → ((ttcGo m acc wf).map Prod.fst).Nodup := by
  intro wf
  induction wf with
  | nil => intro acc h; exact h
  | cons p ps ih =>
    intro acc h
    rw [ttcGo_step]
    cases hr : resolveTruthy m p.1 with
    | none => exact ih acc h
    | some t =>
      apply ih
      rw [keys_upsertApp]
      split_ifs with hmem
      · exact h
      · simp [List.nodup_append, h, hmem]

theorem tableToCols_keys_nodup (m : AliasMap) (wf : List (String × String)) :
    ((tableToCols m wf).map Prod.fst).Nodup :=
  ttcGo_keys_nodup m wf [] (by simp)

theorem find?_of_mem_nodupkeys :
    ∀ (l : List (String × List (String × String))) (tc : String × List (String × String)),
    tc ∈ l → (l.map Prod.fst).Nodup → l.find? (fun x => x.1 = tc.1) = some tc
  | [], tc, h, _ => by cases h
  | e :: rest, tc, h, hnd => by
      rcases List.mem_cons.mp h with he | hrest
      · subst he; simp [List.find?]
      · rw [List.map_cons] at hnd
        have hkeys : e.1 ∉ rest.map Prod.fst := (List.nodup_cons.mp hnd).1
        have hne : ¬(e.1 = tc.1) := by
          intro hEq
          apply hkeys
          rw [hEq]
          exact List.mem_map.mpr ⟨tc, hrest, rfl⟩
        have hnd2 : (rest.map Prod.fst).Nodup := (List.nodup_cons.mp hnd).2
        have hstep := find?_of_mem_nodupkeys rest tc hrest hnd2
        simpa [List.find?, hne] using hstep

theorem mem_tableToCols_eq_filter (m : AliasMap) (wf : List (String × String))
    (tc : String × List (String × String)) (h : tc ∈ tableToCols m wf) :
    tc.2 = wf.filter (fun p => resolveTruthy m p.1 = some tc.1) := by
  have hf := find?_of_mem_nodupkeys _ tc h (tableToCols_keys_nodup m wf)
  rw [tableToCols_find] at hf
  split_ifs at hf with hemp
  exact (congrArg Prod.snd (Option.some.inj hf)).symm

/-! ### Claim C6 -/

theorem filterMap_eq_nil_of {α β : Type} (f : α → Option β) :
    ∀ l : List α, (∀ x ∈ l, f x = none) → l.filterMap f = []
  | [], _ => rfl
  | x :: xs, h => by
      simp [List.filterMap_cons, h x (by simp),
        filterMap_eq_nil_of f xs (fun y hy => h y (by simp [hy]))]

theorem flatMap_eq_nil_of {α β : Type} (f : α → List β) :
    ∀ l : List α, (∀ x ∈ l, f x = []) → l.flatMap f = []
  | [], _ => rfl
  | x :: xs, h => by
      simp [List.flatMap_cons, h x (by simp),
        flatMap_eq_nil_of f xs (fun y hy => h y (by simp [hy]))]

theorem length_filter_implies {α : Type} (p q : α → Bool) (h : ∀ x, p x = true → q x = true) :
    ∀ l : List α, (l.filter p).length ≤ (l.filter q).length
  | [] => le_refl _
  | x :: xs => by
      have ih := length_filter_implies p q h xs
      cases hp : p x with
      | false =>
          cases hq : q x with
          | false => simpa [List.filter_cons, hp, hq] using ih
          | true =>
              simp only [List.filter_cons, hp, hq]
              simp only [if_true, if_false, Bool.false_eq_true, ite_false, ite_true,
                List.length_cons]
              omega
      | true =>
          have hq := h x hp
          simp only [List.filter_cons, hp, hq]
          simp only [ite_true, List.length_cons]
          omega

theorem resolveTruthy_isSome {m : AliasMap} {a T : String}
    (h : resolveTruthy m a = some T) : (dget m a).isSome = true := by
  unfold resolveTruthy at h
  cases hd : dget m a with
  | none => rw [hd] at h; cases h
  | some v => simp [hd]

theorem mem_tableToCols_length_le (m : AliasMap) (wf : List (String × String))
    (tc : String × List (String × String)) (h : tc ∈ tableToCols m wf) :
    tc.2.length ≤ (dropUnresolvable m wf).length := by
  rw [mem_tableToCols_eq_filter m wf tc h]
  unfold dropUnresolvable
  refine length_filter_implies _ _ ?_ wf
  intro p hp
  have hres : resolveTruthy m p.1 = some tc.1 := of_decide_eq_true hp
  exact resolveTruthy_isSome hres

theorem taggedComposites_small (m : AliasMap) (wf : List (String × String))
    (h : (dropUnresolvable m wf).length ≤ 1) : taggedComposites m wf = [] := by
  unfold taggedComposites
  split_ifs with hg
  · apply filterMap_eq_nil_of
    intro tc htc
    have hle := mem_tableToCols_length_le m wf tc htc
    have hnot : ¬(tc.2.length > 1) := by omega
    simp [hnot]
  · rfl

theorem claimedPairs_small (m : AliasMap) (wf : List (String × String))
    (h : (dropUnresolvable m wf).length ≤ 1) : claimedPairs m wf = [] := by
  unfold claimedPairs
  split_ifs with hg
  · apply flatMap_eq_nil_of
    intro tc htc
    have hle := mem_tableToCols_length_le m wf tc htc
    have hnot : ¬(tc.2.length > 1) := by omega
    simp [hnot]
  · rfl

theorem dropUnres_length_le (m : AliasMap) (l : List (String × String)) :
    (dropUnresolvable m l).length ≤ l.length := by
  unfold dropUnresolvable
  exact List.length_filter_le _ _

theorem filterMap_dropUnres {β : Type} (m : AliasMap) (g : (String × String) → Option β)
    (hg : ∀ p, dget m p.1 = none → g p = none) :
    ∀ l, (dropUnresolvable m l).filterMap g = l.filterMap g
  | [] => rfl
  | p :: ps => by
      cases hd : dget m p.1 with
      | none =>
          have h1 : dropUnresolvable m (p :: ps) = dropUnresolvable m ps := by
            unfold dropUnresolvable
            simp [List.filter_cons, hd]
          rw [h1, filterMap_dropUnres m g hg ps]
          simp [List.filterMap_cons, hg p hd]
      | some v =>
          have h1 : dropUnresolvable m (p :: ps) = p :: dropUnresolvable m ps := by
            unfold dropUnresolvable
            simp [List.filter_cons, hd]
          rw [h1]
          simp only [List.filterMap_cons]
          rw [filterMap_dropUnres m g hg ps]

theorem taggedSingles_dropUnres (m : AliasMap) (u : Usage) (c : List (String × String)) :
    taggedSingles m (filterResolvable m u) c = taggedSingles m u c := by
  unfold taggedSingles
  simp only [usageTypes, List.flatMap_cons, List.flatMap_nil, List.append_nil]
  have hg : ∀ (rt imp : String) (p : String × String), dget m p.1 = none →
      (if p ∈ c then none
       else
        match resolveTruthy m p.1 with
        | some t => some (p, mkSingle t p.2 rt imp)
        | none => none) = none := by
    intro rt imp p hd
    have hrt : resolveTruthy m p.1 = none := by unfold resolveTruthy; rw [hd]
    by_cases hc : p ∈ c
    · simp [hc]
    · simp [hc, hrt]
  have h1 : usageGet (filterResolvable m u) "where_filters"
      = dropUnresolvable m (usageGet u "where_filters") := rfl
  have h2 : usageGet (filterResolvable m u) "join_keys"
      = dropUnresolvable m (usageGet u "join_keys") := rfl
  have h3 : usageGet (filterResolvable m u) "order_by"
      = dropUnresolvable m (usageGet u "order_by") := rfl
  rw [h1, h2, h3]
  rw [filterMap_dropUnres m _ (hg _ _), filterMap_dropUnres m _ (hg _ _),
    filterMap_dropUnres m _ (hg _ _)]

/-- C6: every (alias, column) pair whose alias is absent from the
AliasTable is silently dropped: deleting all such pairs from the usage map
leaves the advisor's entire recommendation list unchanged, and the
generation is a total function (no failure). -/
theorem c6_unresolved_alias_dropped (m : AliasMap) (u : Usage) :
    IndexAdvisor_generateRecommendations m u
      = IndexAdvisor_generateRecommendations m (filterResolvable m u) := by
  have hwfr : (filterResolvable m u).where_filters = dropUnresolvable m u.where_filters := rfl
  have hcomp : taggedComposites m (dropUnresolvable m u.where_filters)
      = taggedComposites m u.where_filters := by
    by_cases hlen : (dropUnresolvable m u.where_filters).length > 1
    · have hlen2 : u.where_filters.length > 1 :=
        lt_of_lt_of_le hlen (dropUnres_length_le m _)
      unfold taggedComposites
      rw [if_pos hlen, if_pos hlen2]
      unfold tableToCols
      rw [ttcGo_dropUnres]
    · have hle : (dropUnresolvable m u.where_filters).length ≤ 1 := by omega
      rw [taggedComposites_small m (dropUnresolvable m u.where_filters)
            (le_trans (dropUnres_length_le m _) hle),
          taggedComposites_small m u.where_filters hle]
  have hclaim : claimedPairs m (dropUnresolvable m u.where_filters)
      = claimedPairs m u.where_filters := by
    by_cases hlen : (dropUnresolvable m u.where_filters).length > 1
    · have hlen2 : u.where_filters.length > 1 :=
        lt_of_lt_of_le hlen (dropUnres_length_le m _)
      unfold claimedPairs
      rw [if_pos hlen, if_pos hlen2]
      unfold tableToCols
      rw [ttcGo_dropUnres]
    · have hle : (dropUnresolvable m u.where_filters).length ≤ 1 := by omega
      rw [claimedPairs_small m (dropUnresolvable m u.where_filters)
            (le_trans (dropUnres_length_le m _) hle),
          claimedPairs_small m u.where_filters hle]
  unfold IndexAdvisor_generateRecommendations
  rw [hwfr, hcomp, hclaim, taggedSingles_dropUnres]

/-! ### Claim C1 -/

theorem strLtL_asymm : ∀ a b : List Char, strLtL a b = true → strLtL b a = false
  | [], [] => by simp [strLtL]
  | [], _ :: _ => by intro _; simp [strLtL]
  | _ :: _, [] => by intro h; simp [strLtL] at h
  | a :: as, b :: bs => by
      intro h
      unfold strLtL at h ⊢
      by_cases h1 : a.toNat < b.toNat
      · have h2 : ¬(b.toNat < a.toNat) := by omega
        simp [h1, h2]
      · by_cases h2 : b.toNat < a.toNat
        · rw [if_neg h1, if_pos h2] at h
          cases h
        · rw [if_neg h1, if_neg h2] at h
          simp [h1, h2, strLtL_asymm as bs h]

theorem strSorted_tail : ∀ (x : String) (l : List String),
    strSorted (x :: l) = true → strSorted l = true
  | _, [] => by intro _; rfl
  | x, y :: ys => by
      intro h
      unfold strSorted at h
      simp only [Bool.and_eq_true] at h
      exact h.2

theorem head_pyInsStr (x : String) : ∀ l : List String,
    (pyInsStr x l).head? = some x ∨ (pyInsStr x l).head? = l.head?
  | [] => Or.inl rfl
  | y :: ys => by
      unfold pyInsStr
      split_ifs
      · exact Or.inl rfl
      · exact Or.inr rfl

theorem strSorted_cons_of (y : String) (l : List String)
    (hl : strSorted l = true)
    (hy : ∀ z, l.head? = some z → pyStrLt z y = false) : strSorted (y :: l) = true := by
  cases l with
  | nil => rfl
  | cons z zs =>
      unfold strSorted
      rw [hy z rfl, hl]
      rfl

theorem strSorted_pyInsStr (x : String) : ∀ l, strSorted l = true → strSorted (pyInsStr x l) = true
  | [] => fun _ => rfl
  | y :: ys => fun h => by
      unfold pyInsStr
      split_ifs with hlt
      · have hxy : pyStrLt y x = false := by
          unfold pyStrLt at hlt ⊢
          exact strLtL_asymm _ _ hlt
        simp [strSorted, hxy, h]
      · have hys := strSorted_tail y ys h
        have hrec := strSorted_pyInsStr x ys hys
        apply strSorted_cons_of y _ hrec
        intro z hz
        rcases head_pyInsStr x ys with hh | hh
        · rw [hh] at hz
          injection hz with hz2
          subst hz2
          simp at hlt
          exact hlt
        · rw [hh] at hz
          cases ys with
          | nil => cases hz
          | cons w ws =>
              injection hz with hz2
              subst hz2
              unfold strSorted at h
              simp only [Bool.and_eq_true] at h
              simpa using h.1

theorem strSorted_pySortStr (l : List String) : strSorted (pySortStr l) = true := by
  suffices h : ∀ acc, strSorted acc = true →
      strSorted (l.foldl (fun acc x => pyInsStr x acc) acc) = true by
    exact h [] rfl
  induction l with
  | nil => intro acc h; exact h
  | cons x xs ih => intro acc h; exact ih _ (strSorted_pyInsStr x acc h)

theorem taggedComposites_eq_compMap (m : AliasMap) (wf : List (String × String)) :
    taggedComposites m wf
      = if wf.length > 1 then (tableToCols m wf).filterMap compMap else [] := rfl

theorem compMap_key (tc : String × List (String × String)) (x : String × IdxRec)
    (h : compMap tc = some x) : x.1 = tc.1 := by
  unfold compMap at h
  split_ifs at h
  · exact (congrArg Prod.fst (Option.some.inj h)).symm

theorem filter_filterMap_notmem (T : String) :
    ∀ l : List (String × List (String × String)),
    T ∉ l.map Prod.fst →
    (l.filterMap compMap).filter (fun tc => tc.1 = T) = []
  | [], _ => rfl
  | e :: rest, h => by
      have hkey : ¬(e.1 = T) := by
        intro hEq
        exact h (by rw [← hEq]; exact List.mem_map.mpr ⟨e, by simp, rfl⟩)
      have hrest : T ∉ rest.map Prod.fst := fun hm => h (by simp [hm])
      cases hc : compMap e with
      | none => simpa [List.filterMap_cons, hc] using filter_filterMap_notmem T rest hrest
      | some x =>
          have hx : ¬(x.1 = T) := by rw [compMap_key e x hc]; exact hkey
          simpa [List.filterMap_cons, hc, List.filter_cons, hx]
            using filter_filterMap_notmem T rest hrest

theorem filter_filterMap_key (T : String) (colsT : List (String × String))
    (hlen : colsT.length > 1) :
    ∀ l : List (String × List (String × String)),
    (l.map Prod.fst).Nodup →
    l.find? (fun tc => tc.1 = T) = some (T, colsT) →
    (l.filterMap compMap).filter (fun tc => tc.1 = T)
      = [(T, mkComposite T (pySortStr (colsT.map (fun p => p.2))))]
  | [], _, hf => by cases hf
  | e :: rest, hnd, hf => by
      rw [List.map_cons] at hnd
      by_cases hkey : e.1 = T
      · have he : e = (T, colsT) := by
          have := hf
          rw [List.find?_cons_of_pos _ (by simpa using hkey)] at this
          exact Option.some.inj this
        subst he
        have hrest : T ∉ rest.map Prod.fst := by
          have := (List.nodup_cons.mp hnd).1
          simpa using this
        have hcm : compMap (T, colsT)
            = some (T, mkComposite T (pySortStr (colsT.map (fun p => p.2)))) := by
          unfold compMap
          simp [hlen]
        simp only [List.filterMap_cons, hcm, List.filter_cons]
        simp [filter_filterMap_notmem T rest hrest]
      · have hf2 : rest.find? (fun tc => tc.1 = T) = some (T, colsT) := by
          have := hf
          rwa [List.find?_cons_of_neg _ (by simpa using hkey)] at this
        have hnd2 := (List.nodup_cons.mp hnd).2
        have hrec := filter_filterMap_key T colsT hlen rest hnd2 hf2
        cases hc : compMap e with
        | none => simpa [List.filterMap_cons, hc] using hrec
        | some x =>
            have hx : ¬(x.1 = T) := by rw [compMap_key e x hc]; exact hkey
            simpa [List.filterMap_cons, hc, List.filter_cons, hx] using hrec

/-- C1: when more than one `where_filters` pair resolves to the same table
`T`, the advisor emits exactly one composite recommendation for `T`, with
lexicographically sorted columns, statement
`CREATE INDEX idx_<T>_<col1>_<col2>... ON <T> (<col1>, <col2>, ...);` and
impact `High`, and the single-column phase generates nothing from the
pairs consumed by that composite. -/
theorem c1_composite_suppresses_singletons (m : AliasMap) (u : Usage) (T : String)
    (colsT : List (String × String)) (scols : List String)
    (hc : colsT = u.where_filters.filter (fun p => resolveTruthy m p.1 = some T))
    (hs : scols = pySortStr (colsT.map (fun p => p.2)))
    (h2 : 2 ≤ colsT.length) :
    ((taggedComposites m u.where_filters).filter (fun tc => tc.1 = T)
        = [(T, mkComposite T scols)])
    ∧ mkComposite T scols
        = { statement := "CREATE INDEX idx_" ++ T ++ "_" ++ joinSep "_" scols
              ++ " ON " ++ T ++ " (" ++ joinSep ", " scols ++ ");"
            reason := "Columns " ++ joinSep ", " scols
              ++ " are used together in the WHERE clause."
            impact := "High" }
    ∧ strSorted scols = true
    ∧ (∀ q ∈ taggedSingles m u (claimedPairs m u.where_filters), q.1 ∉ colsT)
    ∧ IndexAdvisor_generateRecommendations m u
        = (taggedComposites m u.where_filters).map (fun x => x.2)
          ++ (taggedSingles m u (claimedPairs m u.where_filters)).map (fun x => x.2)
    ∧ mkComposite T scols ∈ IndexAdvisor_generateRecommendations m u := by
  have hlen1 : colsT.length > 1 := h2
  have hgate : u.where_filters.length > 1 := by
    have hle : colsT.length ≤ u.where_filters.length := by
      rw [hc]
      exact List.length_filter_le _ _
    omega
  have hfind : (tableToCols m u.where_filters).find? (fun tc => tc.1 = T)
      = some (T, colsT) := by
    rw [tableToCols_find, ← hc, if_neg (by intro hnil; rw [hnil] at h2; simp at h2)]
  have hmemTtc : (T, colsT) ∈ tableToCols m u.where_filters :=
    List.mem_of_find?_eq_some hfind
  have hfilter : (taggedComposites m u.where_filters).filter (fun tc => tc.1 = T)
      = [(T, mkComposite T scols)] := by
    rw [taggedComposites_eq_compMap, if_pos hgate, hs]
    exact filter_filterMap_key T colsT hlen1 (tableToCols m u.where_filters)
      (tableToCols_keys_nodup m u.where_filters) hfind
  refine ⟨hfilter, ?_, ?_, ?_, rfl, ?_⟩
  · unfold mkComposite IndexAdvisor_generateIndexName
    have hm : ("CREATE INDEX " ++ "idx_" : String) = "CREATE INDEX idx_" := by decide
    simp only [IdxRec.mk.injEq, String.append_assoc, and_true]
    rw [← hm, String.append_assoc]
  · rw [hs]
    exact strSorted_pySortStr _
  · intro q hq hqcols
    have hnot : q.1 ∉ claimedPairs m u.where_filters := by
      unfold taggedSingles at hq
      rcases List.mem_flatMap.mp hq with ⟨ur, hur, hq2⟩
      rcases List.mem_filterMap.mp hq2 with ⟨p, hp, hgp⟩
      by_cases hcp : p ∈ claimedPairs m u.where_filters
      · simp [hcp] at hgp
      · cases hr : resolveTruthy m p.1 with
        | none => simp [hcp, hr] at hgp
        | some t =>
            simp [hcp, hr] at hgp
            have hq1 : q.1 = p := by rw [← hgp]
            rw [hq1]
            exact hcp
    apply hnot
    unfold claimedPairs
    rw [if_pos hgate]
    apply List.mem_flatMap.mpr
    refine ⟨(T, colsT), hmemTtc, ?_⟩
    show q.1 ∈ if colsT.length > 1 then colsT else []
    rw [if_pos hlen1]
    exact hqcols
  · have hmemFilter : (T, mkComposite T scols)
        ∈ (taggedComposites m u.where_filters).filter (fun tc => tc.1 = T) := by
      rw [hfilter]; simp
    have hmemC : (T, mkComposite T scols) ∈ taggedComposites m u.where_filters :=
      List.mem_of_mem_filter hmemFilter
    unfold IndexAdvisor_generateRecommendations
    apply List.mem_append_left
    exact List.mem_map.mpr ⟨(T, mkComposite T scols), hmemC, rfl⟩

theorem c1_witness :
    (((taggedComposites c1wM c1wU.where_filters).filter (fun tc => tc.1 = "users"))
        = [("users", mkComposite "users" ["a", "b"])])
    ∧ mkComposite "users" ["a", "b"]
        = { statement := "CREATE INDEX idx_" ++ "users" ++ "_" ++ joinSep "_" ["a", "b"]
              ++ " ON " ++ "users" ++ " (" ++ joinSep ", " ["a", "b"] ++ ");"
            reason := "Columns " ++ joinSep ", " ["a", "b"]
              ++ " are used together in the WHERE clause."
            impact := "High" }
    ∧ strSorted ["a", "b"] = true
    ∧ (∀ q ∈ taggedSingles c1wM c1wU (claimedPairs c1wM c1wU.where_filters),
        q.1 ∉ ([("u", "a"), ("u", "b")] : List (String × String)))
    ∧ IndexAdvisor_generateRecommendations c1wM c1wU
        = (taggedComposites c1wM c1wU.where_filters).map (fun x => x.2)
          ++ (taggedSingles c1wM c1wU (claimedPairs c1wM c1wU.where_filters)).map (fun x => x.2)
    ∧ mkComposite "users" ["a", "b"] ∈ IndexAdvisor_generateRecommendations c1wM c1wU :=
  c1_composite_suppresses_singletons c1wM c1wU "users" [("u", "a"), ("u", "b")] ["a", "b"]
    (by decide) (by decide) (by decide)

/-! ### Claim C3 -/

theorem k3_imp_k5 (t : Tok) (h : isTableKw3 t = true) : isTableKw5 t = true := by
  unfold isTableKw3 at h
  unfold isTableKw5
  simp only [Bool.and_eq_true, Bool.or_eq_true] at h ⊢
  exact ⟨h.1, by tauto⟩

theorem not_k5_not_k3 (t : Tok) (h : isTableKw5 t = false) : isTableKw3 t = false := by
  cases h3 : isTableKw3 t
  · rfl
  · rw [k3_imp_k5 t h3] at h
    cases h

theorem identLike_not_kw (t : Tok) (h : isIdentLike t = true) : isKw t = false := by
  cases t with
  | atom tt v => simp [isIdentLike, isIdentG, isIdentListG] at h
  | group k i ch => rfl

theorem identLike_not_ws (t : Tok) (h : isIdentLike t = true) : isWs t = false := by
  cases t with
  | atom tt v => simp [isIdentLike, isIdentG, isIdentListG] at h
  | group k i ch => rfl

theorem kw_not_ws (t : Tok) (h : isKw t = true) : isWs t = false := by
  cases t with
  | atom tt v => cases tt <;> simp_all [isKw, isWs]
  | group k i ch => rfl

theorem kw_not_k5 (t : Tok) (h : isKw t = false) : isTableKw5 t = false := by
  unfold isTableKw5
  rw [h]
  rfl

theorem ws_not_kw (t : Tok) (h : isWs t = true) : isKw t = false := by
  cases t with
  | atom tt v => cases tt <;> simp_all [isKw, isWs]
  | group k i ch => simp [isWs] at h

theorem scanAdd_nonident (t : Tok) (m : AliasMap) (h : isIdentLike t = false) :
    scanAdd t m = m := by
  cases t with
  | atom tt v => rfl
  | group k i ch =>
      cases k <;>
        first
          | rfl
          | (exfalso; simp [isIdentLike, isIdentG, isIdentListG] at h)

theorem step_sync (s : SyncSt) (t : Tok) (s2 : SyncSt) (m : AliasMap)
    (hstep : syncStep s t = some s2) :
    ∃ m', parserStep (m, (flagsOf s).1) t = (m', (flagsOf s2).1)
        ∧ advisorStep (m, (flagsOf s).2) t = (m', (flagsOf s2).2) := by
  cases s with
  | N =>
      by_cases h3 : isTableKw3 t = true
      · simp only [syncStep, if_pos h3] at hstep
        have hs2 : SyncSt.K = s2 := Option.some.inj hstep
        subst hs2
        exact ⟨m, by simp [parserStep, flagsOf, k3_imp_k5 t h3],
               by simp [advisorStep, flagsOf, h3]⟩
      · have h3f : isTableKw3 t = false := by simpa using h3
        by_cases h5 : isTableKw5 t = true
        · simp only [syncStep, if_neg h3, if_pos h5] at hstep
          cases hstep
        · have h5f : isTableKw5 t = false := by simpa using h5
          simp only [syncStep, if_neg h3, if_neg h5] at hstep
          have hs2 : SyncSt.N = s2 := Option.some.inj hstep
          subst hs2
          exact ⟨m, by simp [parserStep, flagsOf, h5f],
                 by simp [advisorStep, flagsOf, h3f]⟩
  | K =>
      by_cases hid : isIdentLike t = true
      · have hkwf : isKw t = false := identLike_not_kw t hid
        have hwsf : isWs t = false := identLike_not_ws t hid
        have h5f : isTableKw5 t = false := kw_not_k5 t hkwf
        have h3f : isTableKw3 t = false := not_k5_not_k3 t h5f
        by_cases hcm : normTok t = ","
        · simp only [syncStep, if_pos hid, if_pos hcm] at hstep
          have hs2 : SyncSt.K = s2 := Option.some.inj hstep
          subst hs2
          exact ⟨scanAdd t m,
            by simp [parserStep, flagsOf, h5f, hwsf, hcm],
            by simp [advisorStep, flagsOf, h3f, hkwf]⟩
        · simp only [syncStep, if_pos hid, if_neg hcm] at hstep
          have hs2 : SyncSt.D = s2 := Option.some.inj hstep
          subst hs2
          exact ⟨scanAdd t m,
            by simp [parserStep, flagsOf, h5f, hwsf, hcm],
            by simp [advisorStep, flagsOf, h3f, hkwf]⟩
      · have hidf : isIdentLike t = false := by simpa using hid
        by_cases h3 : isTableKw3 t = true
        · simp only [syncStep, if_neg hid, if_pos h3] at hstep
          have hs2 : SyncSt.K = s2 := Option.some.inj hstep
          subst hs2
          exact ⟨scanAdd t m,
            by simp [parserStep, flagsOf, k3_imp_k5 t h3],
            by simp [advisorStep, flagsOf, h3]⟩
        · by_cases h5 : isTableKw5 t = true
          · simp only [syncStep, if_neg hid, if_neg h3, if_pos h5] at hstep
            cases hstep
          · have h3f : isTableKw3 t = false := by simpa using h3
            have h5f : isTableKw5 t = false := by simpa using h5
            by_cases hkw : isKw t = true
            · by_cases hcm : normTok t = ","
              · simp only [syncStep, if_neg hid, if_neg h3, if_neg h5, if_pos hkw,
                  if_pos hcm] at hstep
                cases hstep
              · simp only [syncStep, if_neg hid, if_neg h3, if_neg h5, if_pos hkw,
                  if_neg hcm] at hstep
                have hs2 : SyncSt.N = s2 := Option.some.inj hstep
                subst hs2
                have hwsf : isWs t = false := kw_not_ws t hkw
                exact ⟨scanAdd t m,
                  by simp [parserStep, flagsOf, h5f, hwsf, hcm],
                  by simp [advisorStep, flagsOf, h3f, hkw]⟩
            · have hkwf : isKw t = false := by simpa using hkw
              by_cases hwc : (isWs t || normTok t = ",") = true
              · simp only [syncStep, if_neg hid, if_neg h3, if_neg h5, if_neg hkw,
                  if_pos hwc] at hstep
                have hs2 : SyncSt.K = s2 := Option.some.inj hstep
                subst hs2
                exact ⟨scanAdd t m,
                  by simp [parserStep, flagsOf, h5f, hwc],
                  by simp [advisorStep, flagsOf, h3f, hkwf]⟩
              · simp only [syncStep, if_neg hid, if_neg h3, if_neg h5, if_neg hkw,
                  if_neg hwc] at hstep
                have hs2 : SyncSt.D = s2 := Option.some.inj hstep
                subst hs2
                have hwcf : (isWs t || normTok t = ",") = false := by simpa using hwc
                exact ⟨scanAdd t m,
                  by simp [parserStep, flagsOf, h5f, hwcf],
                  by simp [advisorStep, flagsOf, h3f, hkwf]⟩
  | D =>
      by_cases hid : isIdentLike t = true
      · simp only [syncStep, if_pos hid] at hstep
        cases hstep
      · have hidf : isIdentLike t = false := by simpa using hid
        have hscan : scanAdd t m = m := scanAdd_nonident t m hidf
        by_cases h3 : isTableKw3 t = true
        · simp only [syncStep, if_neg hid, if_pos h3] at hstep
          have hs2 : SyncSt.K = s2 := Option.some.inj hstep
          subst hs2
          exact ⟨m, by simp [parserStep, flagsOf, k3_imp_k5 t h3],
                 by simp [advisorStep, flagsOf, h3, hscan]⟩
        · by_cases h5 : isTableKw5 t = true
          · simp only [syncStep, if_neg hid, if_neg h3, if_pos h5] at hstep
            cases hstep
          · have h3f : isTableKw3 t = false := by simpa using h3
            have h5f : isTableKw5 t = false := by simpa using h5
            by_cases hkw : isKw t = true
            · simp only [syncStep, if_neg hid, if_neg h3, if_neg h5, if_pos hkw] at hstep
              have hs2 : SyncSt.N = s2 := Option.some.inj hstep
              subst hs2
              exact ⟨m, by simp [parserStep, flagsOf, h5f],
                     by simp [advisorStep, flagsOf, h3f, hkw, hscan]⟩
            · have hkwf : isKw t = false := by simpa using hkw
              simp only [syncStep, if_neg hid, if_neg h3, if_neg h5, if_neg hkw] at hstep
              have hs2 : SyncSt.D = s2 := Option.some.inj hstep
              subst hs2
              exact ⟨m, by simp [parserStep, flagsOf, h5f],
                     by simp [advisorStep, flagsOf, h3f, hkwf, hscan]⟩

theorem scan_sync : ∀ (ts : List Tok) (s : SyncSt) (m : AliasMap),
    syncOK s ts = true →
    (ts.foldl parserStep (m, (flagsOf s).1)).1 = (ts.foldl advisorStep (m, (flagsOf s).2)).1
  | [], _, _, _ => rfl
  | t :: rest, s, m, h => by
      unfold syncOK at h
      cases hstep : syncStep s t with
      | none => rw [hstep] at h; cases h
      | some s2 =>
          rw [hstep] at h
          obtain ⟨m', hp, ha⟩ := step_sync s t s2 m hstep
          rw [List.foldl_cons, List.foldl_cons, hp, ha]
          exact scan_sync rest s2 m' h

/-- C3 counterexample: the advisor's independently rebuilt alias table is
not equal to the parser's AliasTable on a statement containing
`RIGHT JOIN`. -/
theorem c3_counterexample :
    IndexAdvisor_mapAliasesToTables c3cex ≠ SQLParser_getTablesAndAliases c3cex := by decide

/-- C3 amended: the advisor's rebuilt alias table equals the parser's
AliasTable on every statement accepted by the three-state synchronisation
automaton `syncOK`: table keywords are only FROM / JOIN / LEFT JOIN (never
RIGHT JOIN or INNER JOIN), after a table keyword exactly one Identifier /
IdentifierList appears before the next keyword, and no Identifier /
IdentifierList occurs while the advisor's sticky flag is set but the
parser's flag is already clear. -/
theorem c3_alias_maps_agree (ts : List Tok) (h : syncOK SyncSt.N ts = true) :
    IndexAdvisor_mapAliasesToTables ts = SQLParser_getTablesAndAliases ts := by
  unfold IndexAdvisor_mapAliasesToTables SQLParser_getTablesAndAliases
  exact (scan_sync ts SyncSt.N [] h).symm

theorem c3_witness :
    syncOK SyncSt.N c3wTs = true
      ∧ IndexAdvisor_mapAliasesToTables c3wTs = SQLParser_getTablesAndAliases c3wTs :=
  ⟨by decide, c3_alias_maps_agree c3wTs (by decide)⟩
